import Mathlib

/-!
Verification of the mempool core of the repository (crate `transaction-pool`).

The orchestrator `PoolInner` (file `crates/transaction-pool/src/pool/mod.rs`)
is translated definition-by-definition.  The inner sub-pool manager `TxPool`
(module `pool::txpool`), the sender-ID table (module `identifier`), the
best-transactions iterator (module `pool::best`) and the per-hash event
listener (module `pool::listener`) are not part of the provided sources, so
they are modelled from the specification, as marked on each definition.
-/

namespace Reth

/-- Transaction hashes, modelled as plain naturals. -/
abbrev TxHash := Nat

/-- 20-byte account identifiers, modelled as plain naturals. -/
abbrev Address := Nat

/-- The `TransactionOrigin` from `traits.rs`: where the transaction came from. -/
inductive TransactionOrigin where
  | Local
  | External
  | Private
  deriving DecidableEq, Repr

/-- The three sub-pools (`pool::state::SubPool`). -/
inductive SubPool where
  | Pending
  | BaseFee
  | Queued
  deriving DecidableEq, Repr

/-- The `PoolError` from `error.rs` (file not in the sources; constructors taken
from spec §7, with `DiscardedOnInsert` carrying the hash as in
`PoolInner::add_transactions`). -/
inductive PoolError where
  | NonceTooLow
  | NonceGapTooLarge
  | ReplacementUnderpriced
  | InsufficientFunds
  | AlreadyKnown
  | DiscardedOnInsert (hash : TxHash)
  | InvalidReason (code : Nat)
  deriving DecidableEq, Repr

/-- The `TransactionId` from `identifier.rs`: the pair `(sender_id, nonce)`. -/
structure TransactionId where
  sender : Nat
  nonce : Nat
  deriving DecidableEq, Repr

/-- Constructor `TransactionId::new`. -/
def TransactionId.new (sender nonce : Nat) : TransactionId :=
  ⟨sender, nonce⟩

/-- The opaque validated transaction payload (the `PoolTransaction` trait
of `traits.rs`): the capability set the pool relies on. -/
structure PoolTx where
  hash : TxHash
  sender : Address
  nonce : Nat
  gas_limit : Nat
  fee_cap : Nat
  value : Nat
  deriving DecidableEq, Repr

/-- Cost bound `gas_limit * fee_cap + value` (spec §3). -/
def PoolTx.cost (t : PoolTx) : Nat :=
  t.gas_limit * t.fee_cap + t.value

/-- The `ValidPoolTransaction` from `validate.rs`: the record stored in the
pool, with the fields assembled in `PoolInner::add_transaction`. -/
structure ValidPoolTransaction where
  transaction : PoolTx
  transaction_id : TransactionId
  cost : Nat
  propagate : Bool
  timestamp : Nat
  origin : TransactionOrigin
  deriving DecidableEq, Repr

/-- Accessor `ValidPoolTransaction::hash`. -/
def ValidPoolTransaction.hash (v : ValidPoolTransaction) : TxHash :=
  v.transaction.hash

/-- The `TransactionValidationOutcome` from `validate.rs`: what the validator
delivers to the pool. -/
inductive TransactionValidationOutcome where
  | Valid (balance : Nat) (state_nonce : Nat) (transaction : PoolTx)
  | Invalid (transaction : PoolTx) (error : PoolError)
  deriving DecidableEq, Repr

/-- Event type `NewTransactionEvent` from `traits.rs`. -/
structure NewTransactionEvent where
  subpool : SubPool
  transaction : ValidPoolTransaction
  deriving DecidableEq, Repr

/-- The per-hash events fired by `PoolInner::notify_event_listeners`
(`listener.ready` / `listener.queued`). -/
inductive TransactionEvent where
  | Ready
  | Queued
  deriving DecidableEq, Repr

/-! ## Bounded listener channels

The listener channels are the bounded mpsc channels of the `futures` crate;
they are external to the repository and modelled by their buffer: `try_send`
succeeds while the buffer has room, fails with a full error when the buffer
is at capacity, and fails with a closed error when the receiver is gone. -/

/-- Outcome of a non-blocking `try_send` on a bounded channel. -/
inductive TrySendOutcome where
  | Sent
  | FailedFull
  | FailedClosed
  deriving DecidableEq, Repr

/-- A bounded mpsc channel (sender view). -/
structure Chan (α : Type) where
  capacity : Nat
  buffer : List α
  closed : Bool
  deriving DecidableEq, Repr

/-- A fresh bounded channel of the given capacity. -/
def Chan.mk_new (α : Type) (cap : Nat) : Chan α :=
  { capacity := cap, buffer := [], closed := false }

/-- Non-blocking send: never waits, reports full or closed as an error. -/
def Chan.try_send {α : Type} (c : Chan α) (msg : α) : TrySendOutcome × Chan α :=
  if c.closed then (TrySendOutcome.FailedClosed, c)
  else if c.capacity ≤ c.buffer.length then (TrySendOutcome.FailedFull, c)
  else (TrySendOutcome.Sent, { c with buffer := c.buffer ++ [msg] })

/-! ## Sender-ID table -/

/-- Modelled from the spec: the sender-ID table of `identifier.rs`
(`SenderIdentifiers`, not in the provided sources): bidirectional interning
of addresses to dense small integers, monotonically assigned. -/
structure SenderIdentifiers where
  table : List (Address × Nat)
  next_id : Nat
  deriving DecidableEq, Repr

/-- Modelled from the spec: `id_or_create(address) → sender_id`. -/
def SenderIdentifiers.sender_id_or_create (ids : SenderIdentifiers) (addr : Address) :
    Nat × SenderIdentifiers :=
  match ids.table.lookup addr with
  | some i => (i, ids)
  | none =>
      (ids.next_id,
        { table := ids.table ++ [(addr, ids.next_id)], next_id := ids.next_id + 1 })

/-! ## The inner `TxPool` (spec-modelled)

The module `pool::txpool` is not among the provided sources; the following
definitions are modelled from spec §3–§4.7: sender-state cache, membership
map `transaction_id → (record, sub-pool tag)`, routing rules §4.5, the
promotion cascade §4.6, and worst-first size enforcement §4.7. -/

/-- Per-sender state last reported by the validator (spec §3). -/
structure SenderInfo where
  state_nonce : Nat
  balance : Nat
  deriving DecidableEq, Repr

/-- Modelled from the spec: the inner sub-pool manager (`pool::txpool::TxPool`,
not in the provided sources).  The flat membership map is a list of
`(record, sub-pool tag)` pairs. -/
structure TxPool where
  base_fee : Nat
  max_count : Nat
  senders : List (Nat × SenderInfo)
  txs : List (ValidPoolTransaction × SubPool)
  deriving DecidableEq, Repr

/-- Default `gap_limit` (spec §6: default 16). -/
def GAP_LIMIT : Nat := 16

/-- Default `replacement_bump` percentage (spec §4.3: e.g. 10%). -/
def REPLACEMENT_BUMP_PERCENT : Nat := 10

/-- Modelled from the spec: the injected ordering (spec §6): effective miner
tip at the current base fee. -/
def priorityOf (base_fee : Nat) (t : PoolTx) : Nat :=
  t.fee_cap - base_fee

/-- Insert-or-update in the sender-state cache. -/
def upsertSender (l : List (Nat × SenderInfo)) (s : Nat) (info : SenderInfo) :
    List (Nat × SenderInfo) :=
  if l.any (fun e => e.1 == s) then
    l.map (fun e => if e.1 == s then (s, info) else e)
  else l ++ [(s, info)]

/-- Whether the pool holds a transaction of sender `s` with nonce `k`. -/
def TxPool.heldNonce (p : TxPool) (s k : Nat) : Bool :=
  p.txs.any fun e => e.1.transaction_id == TransactionId.new s k

/-- Whether any nonce in `[n, m)` is missing for sender `s` (spec §4.5 rule 3). -/
def TxPool.hasGap (p : TxPool) (s n m : Nat) : Bool :=
  (List.range' n (m - n)).any fun k => !(p.heldNonce s k)

/-- Cumulative cost of the records of `s` with nonces in `[n, upTo]` already
in Pending or BaseFee, plus the incoming cost (spec §4.5). -/
def TxPool.prefixCost (p : TxPool) (s n upTo incoming : Nat) : Nat :=
  incoming +
    ((p.txs.filter fun e =>
        e.1.transaction_id.sender == s && decide (n ≤ e.1.transaction_id.nonce) &&
          decide (e.1.transaction_id.nonce ≤ upTo) &&
          (e.2 == SubPool.Pending || e.2 == SubPool.BaseFee)).map
      fun e => e.1.cost).sum

/-- Look up a record by its transaction id. -/
def TxPool.findById (p : TxPool) (tid : TransactionId) :
    Option (ValidPoolTransaction × SubPool) :=
  p.txs.find? fun e => e.1.transaction_id == tid

/-- Remove the record with the given transaction id. -/
def TxPool.removeById (p : TxPool) (tid : TransactionId) : TxPool :=
  { p with txs := p.txs.filter fun e => !(e.1.transaction_id == tid) }

/-- Retag the record with the given transaction id to a new sub-pool. -/
def TxPool.setSubPool (p : TxPool) (tid : TransactionId) (sp : SubPool) : TxPool :=
  { p with txs := p.txs.map fun e => if e.1.transaction_id == tid then (e.1, sp) else e }

/-- Modelled from the spec: routing rules §4.5 for a newly inserted record. -/
def TxPool.route (p : TxPool) (v : ValidPoolTransaction) (n B : Nat) :
    Except PoolError SubPool :=
  let t := v.transaction
  let s := v.transaction_id.sender
  if t.nonce < n then Except.error PoolError.NonceTooLow
  else if n + GAP_LIMIT < t.nonce then Except.error PoolError.NonceGapTooLarge
  else if p.hasGap s n t.nonce then Except.ok SubPool.Queued
  else if B < p.prefixCost s n t.nonce v.cost then Except.ok SubPool.Queued
  else if t.fee_cap < p.base_fee then Except.ok SubPool.BaseFee
  else Except.ok SubPool.Pending

/-- Modelled from the spec: one sender's promotion cascade (spec §4.6).
Starting at the sender's `state_nonce`, walk the held nonces while they are
contiguous and the accumulated prefix cost stays within the balance; route
each to BaseFee or Pending by the fee-cap test, promoting
Queued → {BaseFee, Pending} and BaseFee → Pending.  Returns the new pool
and the hashes promoted to Pending. -/
def TxPool.cascadeWalk : TxPool → Nat → Nat → Nat → Nat → Nat → Nat →
    TxPool × List TxHash
  | p, _, _, _, _, _, 0 => (p, [])
  | p, s, expected, accCost, B, F, fuel + 1 =>
      match p.findById (TransactionId.new s expected) with
      | none => (p, [])
      | some (v, sp) =>
          let newCost := accCost + v.cost
          if B < newCost then (p, [])
          else
            let target := if v.transaction.fee_cap < F then SubPool.BaseFee else SubPool.Pending
            let promote := (sp == SubPool.Queued && !(target == SubPool.Queued)) ||
              (sp == SubPool.BaseFee && target == SubPool.Pending)
            let p' := p.setSubPool (TransactionId.new s expected)
              (if promote then target else sp)
            let movedToPending := promote && target == SubPool.Pending
            let rest := TxPool.cascadeWalk p' s (expected + 1) newCost B F fuel
            (rest.1, (if movedToPending then [v.hash] else []) ++ rest.2)

/-- Tracks an added transaction and the graph changes it caused
(`AddedPendingTransaction` in `pool/mod.rs`). -/
structure AddedPendingTransaction where
  transaction : ValidPoolTransaction
  promoted : List TxHash
  discarded : List TxHash
  removed : List ValidPoolTransaction
  deriving DecidableEq, Repr

/-- The `AddedTransaction` from `pool/mod.rs`. -/
inductive AddedTransaction where
  | Pending (tx : AddedPendingTransaction)
  | Parked (transaction : ValidPoolTransaction) (subpool : SubPool)
  deriving DecidableEq, Repr

/-- The `AddedTransaction::as_pending`: the hash, if the record went to Pending. -/
def AddedTransaction.as_pending : AddedTransaction → Option TxHash
  | AddedTransaction.Pending tx => some tx.transaction.hash
  | AddedTransaction.Parked _ _ => none

/-- Accessor `AddedTransaction::hash`. -/
def AddedTransaction.hash : AddedTransaction → TxHash
  | AddedTransaction.Pending tx => tx.transaction.hash
  | AddedTransaction.Parked transaction _ => transaction.hash

/-- Conversion `AddedTransaction::into_new_transaction_event`. -/
def AddedTransaction.into_new_transaction_event : AddedTransaction → NewTransactionEvent
  | AddedTransaction.Pending tx =>
      { subpool := SubPool.Pending, transaction := tx.transaction }
  | AddedTransaction.Parked transaction subpool =>
      { transaction := transaction, subpool := subpool }

/-- The hashes the inner pool reports as promoted to Pending. -/
def AddedTransaction.promoted_hashes : AddedTransaction → List TxHash
  | AddedTransaction.Pending tx => tx.promoted
  | AddedTransaction.Parked _ _ => []

/-- Modelled from the spec: the duplicate/replacement policy (spec §4.3):
an incoming record sharing a `transaction_id` with a held one replaces it
iff its priority strictly exceeds the old priority by the replacement bump;
a byte-identical duplicate is `AlreadyKnown`. -/
def TxPool.applyReplacement (p : TxPool) (v : ValidPoolTransaction) :
    Except PoolError TxPool :=
  match p.findById v.transaction_id with
  | none => Except.ok p
  | some (old, _) =>
      if old.transaction == v.transaction then Except.error PoolError.AlreadyKnown
      else if priorityOf p.base_fee old.transaction * (100 + REPLACEMENT_BUMP_PERCENT) <
          priorityOf p.base_fee v.transaction * 100 then
        Except.ok (p.removeById v.transaction_id)
      else Except.error PoolError.ReplacementUnderpriced

/-- Modelled from the spec: `TxPool::add_transaction` (spec §4.4):
update the sender-state cache, apply the duplicate/replacement policy
(spec §4.3), route the record (spec §4.5), then run the promotion cascade
for the sender (spec §4.6). -/
def TxPool.add_transaction (p0 : TxPool) (v : ValidPoolTransaction)
    (balance state_nonce : Nat) :
    Except PoolError (AddedTransaction × TxPool) :=
  let s := v.transaction_id.sender
  let p := { p0 with senders := upsertSender p0.senders s ⟨state_nonce, balance⟩ }
  match p.applyReplacement v with
  | Except.error e => Except.error e
  | Except.ok p1 =>
      match p1.route v state_nonce balance with
      | Except.error e => Except.error e
      | Except.ok sp =>
          let p2 := { p1 with txs := p1.txs ++ [(v, sp)] }
          let walked := p2.cascadeWalk s state_nonce 0 balance p2.base_fee (p2.txs.length + 1)
          let added :=
            if sp == SubPool.Pending then
              AddedTransaction.Pending
                { transaction := v, promoted := walked.2, discarded := [], removed := [] }
            else AddedTransaction.Parked v sp
          Except.ok (added, walked.1)

/-- The worst record for eviction: Queued first, then BaseFee, then Pending,
each by ascending priority (spec §4.7). -/
def worstOf (base_fee : Nat) (l : List (ValidPoolTransaction × SubPool)) :
    Option ValidPoolTransaction :=
  match l with
  | [] => none
  | e :: rest =>
      match worstOf base_fee rest with
      | none => some e.1
      | some w =>
          if priorityOf base_fee e.1.transaction ≤ priorityOf base_fee w.transaction then
            some e.1
          else some w

/-- Pick the eviction victim across the sub-pools in worst-first order. -/
def TxPool.worst (p : TxPool) : Option ValidPoolTransaction :=
  match worstOf p.base_fee (p.txs.filter fun e => e.2 == SubPool.Queued) with
  | some w => some w
  | none =>
      match worstOf p.base_fee (p.txs.filter fun e => e.2 == SubPool.BaseFee) with
      | some w => some w
      | none => worstOf p.base_fee (p.txs.filter fun e => e.2 == SubPool.Pending)

/-- Fuelled eviction loop: evict the worst record until the count limit holds. -/
def TxPool.discardGo : TxPool → Nat → TxPool × List ValidPoolTransaction
  | p, 0 => (p, [])
  | p, fuel + 1 =>
      if p.txs.length ≤ p.max_count then (p, [])
      else
        match p.worst with
        | none => (p, [])
        | some w =>
            let rest := TxPool.discardGo (p.removeById w.transaction_id) fuel
            (rest.1, w :: rest.2)

/-- Modelled from the spec: `TxPool::discard_worst` (spec §4.7) — worst-first
eviction until the size ceiling holds, returning the discarded records. -/
def TxPool.discard_worst (p : TxPool) : TxPool × List ValidPoolTransaction :=
  p.discardGo p.txs.length

/-- Modelled from the spec: total number of transactions in the pool. -/
def TxPool.len (p : TxPool) : Nat :=
  p.txs.length

/-- Modelled from the spec: whether the pool holds no transaction. -/
def TxPool.is_empty (p : TxPool) : Bool :=
  p.txs.isEmpty

/-! ## The orchestrator `PoolInner` (from `pool/mod.rs`) -/

/-- The `PoolInner` from `pool/mod.rs`.  Lock wrappers disappear in the
functional embedding; the per-hash event listener (`PoolEventListener`,
module not in the sources) is represented by the log of fired events, and
`Instant::now()` by the `clock` counter. -/
structure PoolInner where
  identifiers : SenderIdentifiers
  pool : TxPool
  pending_transaction_listener : List (Chan TxHash)
  transaction_listener : List (Chan NewTransactionEvent)
  event_log : List (TxHash × TransactionEvent)
  clock : Nat

/-- The `PoolInner::add_pending_listener`: a fresh bounded channel with
`TX_LISTENER_BUFFER_SIZE = 2048`, its sender half pushed on the listener
vector, its receiver half returned. -/
def PoolInner.add_pending_listener (p : PoolInner) : Chan TxHash × PoolInner :=
  let c := Chan.mk_new TxHash 2048
  (c, { p with pending_transaction_listener := p.pending_transaction_listener ++ [c] })

/-- The `PoolInner::add_transaction_listener`: a fresh bounded channel with
`TX_LISTENER_BUFFER_SIZE = 1024`. -/
def PoolInner.add_transaction_listener (p : PoolInner) :
    Chan NewTransactionEvent × PoolInner :=
  let c := Chan.mk_new NewTransactionEvent 1024
  (c, { p with transaction_listener := p.transaction_listener ++ [c] })

/-- The `PoolInner::on_new_pending_transaction`: `retain_mut` with `try_send`;
a listener whose channel is merely full is kept (the event is lost, a
warning is logged), a listener whose channel is closed is dropped. -/
def on_new_pending_transaction (listeners : List (Chan TxHash)) (ready : TxHash) :
    List (Chan TxHash) :=
  match listeners with
  | [] => []
  | l :: rest =>
      match l.try_send ready with
      | (TrySendOutcome.Sent, l') => l' :: on_new_pending_transaction rest ready
      | (TrySendOutcome.FailedFull, l') => l' :: on_new_pending_transaction rest ready
      | (TrySendOutcome.FailedClosed, _) => on_new_pending_transaction rest ready

/-- The `PoolInner::on_new_transaction`: same retention policy on the
new-transaction channel. -/
def on_new_transaction (listeners : List (Chan NewTransactionEvent))
    (event : NewTransactionEvent) : List (Chan NewTransactionEvent) :=
  match listeners with
  | [] => []
  | l :: rest =>
      match l.try_send event with
      | (TrySendOutcome.Sent, l') => l' :: on_new_transaction rest event
      | (TrySendOutcome.FailedFull, l') => l' :: on_new_transaction rest event
      | (TrySendOutcome.FailedClosed, _) => on_new_transaction rest event

/-- The `PoolInner::notify_event_listeners`: `ready` for a Pending insertion,
`queued` for a Parked one — only the inserted record is reported. -/
def notify_event_listeners (tx : AddedTransaction) : List (TxHash × TransactionEvent) :=
  match tx with
  | AddedTransaction.Pending tx => [(tx.transaction.hash, TransactionEvent.Ready)]
  | AddedTransaction.Parked transaction _ => [(transaction.hash, TransactionEvent.Queued)]

/-- Panics such as `unimplemented!()`, made explicit in the embedding. -/
inductive RustOutcome (α : Type) where
  | Returns (value : α)
  | Panics
  deriving DecidableEq, Repr

/-- The `PoolInner::resubmit` from `pool/mod.rs`: the body is `unimplemented!()`,
which panics on every input. -/
def PoolInner.resubmit (_p : PoolInner)
    (_transactions : List (TxHash × ValidPoolTransaction)) : RustOutcome Unit :=
  RustOutcome.Panics

/-- The record assembled in the `Valid` arm of `PoolInner::add_transaction`:
`cost`, the interned `(sender_id, nonce)` id, `propagate: false`, the
insertion timestamp and the origin. -/
def PoolInner.mk_record (p : PoolInner) (origin : TransactionOrigin)
    (transaction : PoolTx) : ValidPoolTransaction :=
  { cost := transaction.cost
    transaction := transaction
    transaction_id :=
      TransactionId.new (p.identifiers.sender_id_or_create transaction.sender).1
        transaction.nonce
    propagate := false
    timestamp := p.clock
    origin := origin }

/-- Result of one `PoolInner::add_transaction` call: the returned
`PoolResult<TxHash>`, the new state, and the events published on each of the
three listener paths during the call. -/
structure AddTxResult where
  result : Except PoolError TxHash
  state : PoolInner
  pending_events : List TxHash
  new_tx_events : List NewTransactionEvent
  hash_events : List (TxHash × TransactionEvent)

/-- The `PoolInner::add_transaction` from `pool/mod.rs`: on a `Valid` outcome,
assemble the record, hand it to the inner pool, then notify the pending
stream (for the inserted record only, via `as_pending`), the per-hash event
listeners, and the new-transaction stream; on an `Invalid` outcome return
the error verbatim without touching any state. -/
def PoolInner.add_transaction (p : PoolInner) (origin : TransactionOrigin)
    (tx : TransactionValidationOutcome) : AddTxResult :=
  match tx with
  | TransactionValidationOutcome.Valid balance state_nonce transaction =>
      let ids' := (p.identifiers.sender_id_or_create transaction.sender).2
      let vtx := p.mk_record origin transaction
      let p1 := { p with identifiers := ids', clock := p.clock + 1 }
      match p1.pool.add_transaction vtx balance state_nonce with
      | Except.error e =>
          { result := Except.error e, state := p1,
            pending_events := [], new_tx_events := [], hash_events := [] }
      | Except.ok (added, pool') =>
          let hash := added.hash
          let pending_events := added.as_pending.toList
          let pls :=
            match added.as_pending with
            | some h => on_new_pending_transaction p1.pending_transaction_listener h
            | none => p1.pending_transaction_listener
          let hash_events := notify_event_listeners added
          let ev := added.into_new_transaction_event
          let tls := on_new_transaction p1.transaction_listener ev
          { result := Except.ok hash
            state :=
              { p1 with
                pool := pool'
                pending_transaction_listener := pls
                transaction_listener := tls
                event_log := p1.event_log ++ hash_events }
            pending_events := pending_events
            new_tx_events := [ev]
            hash_events := hash_events }
  | TransactionValidationOutcome.Invalid _tx err =>
      { result := Except.error err, state := p,
        pending_events := [], new_tx_events := [], hash_events := [] }

/-- The `PoolInner::discard_worst`: enforce size limits on the inner pool and
collect the hashes of the discarded transactions. -/
def PoolInner.discard_worst (p : PoolInner) : List TxHash × PoolInner :=
  let d := p.pool.discard_worst
  (d.2.map (fun tx => tx.hash), { p with pool := d.1 })

/-- Whether a `PoolResult` is `Ok` (`Result::is_ok`). -/
def exceptIsOk (r : Except PoolError TxHash) : Bool :=
  match r with
  | Except.ok _ => true
  | Except.error _ => false

/-- The per-element rewriting of `PoolInner::add_transactions`: a successful
insert whose hash was discarded by the size-enforcement step becomes the
`DiscardedOnInsert` error; everything else is kept. -/
def rewriteDiscarded (discarded : List TxHash) (res : Except PoolError TxHash) :
    Except PoolError TxHash :=
  match res with
  | Except.ok hash =>
      if discarded.contains hash then Except.error (PoolError.DiscardedOnInsert hash)
      else Except.ok hash
  | other => other

/-- The sequential per-transaction insert loop of
`PoolInner::add_transactions` (the `map(|tx| self.add_transaction(...))`). -/
def PoolInner.insert_all :
    PoolInner → TransactionOrigin → List TransactionValidationOutcome →
      List (Except PoolError TxHash) × PoolInner
  | p, _, [] => ([], p)
  | p, origin, o :: os =>
      let r := p.add_transaction origin o
      let rest := PoolInner.insert_all r.state origin os
      (r.result :: rest.1, rest.2)

/-- Result of `PoolInner::add_transactions`; `discard_runs` counts how many
times `discard_worst` was executed during the call. -/
structure AddBatchResult where
  results : List (Except PoolError TxHash)
  state : PoolInner
  discard_runs : Nat

/-- The `PoolInner::add_transactions` from `pool/mod.rs`: insert every outcome in
order; if at least one insert succeeded, run `discard_worst` once; if it
discarded anything, rewrite successful results whose hash was discarded to
`DiscardedOnInsert`. -/
def PoolInner.add_transactions (p : PoolInner) (origin : TransactionOrigin)
    (transactions : List TransactionValidationOutcome) : AddBatchResult :=
  let ins := PoolInner.insert_all p origin transactions
  let added := ins.1
  if added.any exceptIsOk then
    let d := ins.2.discard_worst
    if d.1.isEmpty then { results := added, state := d.2, discard_runs := 1 }
    else
      { results := added.map (rewriteDiscarded d.1), state := d.2, discard_runs := 1 }
  else { results := added, state := ins.2, discard_runs := 0 }

/-- Method `PoolInner::len`. -/
def PoolInner.len (p : PoolInner) : Nat :=
  p.pool.len

/-- Method `PoolInner::is_empty`. -/
def PoolInner.is_empty (p : PoolInner) : Bool :=
  p.pool.is_empty

/-! ## The best-transactions iterator (spec-modelled)

The module `pool::best` is not among the provided sources; the iterator is
modelled from spec §4.8: a snapshot of the Pending score index, a per-sender
next-expected-nonce cursor, and a heap pop that buffers records whose nonce
is not at the cursor — so each yield is the highest-priority record among
the cursor-eligible ones.  `mark_invalid` removes all higher-nonce records
of the same sender from the yieldable set of this iteration. -/

/-- The view of a record held by an iterator snapshot. -/
structure BestRec where
  hash : TxHash
  sender : Nat
  nonce : Nat
  priority : Nat
  deriving DecidableEq, Repr

/-- The `(sender, nonce)` key of a snapshot record. -/
def bestKey (r : BestRec) : Nat × Nat :=
  (r.sender, r.nonce)

/-- Minimum of a list of naturals with accumulator. -/
def minAcc : Nat → List Nat → Nat
  | d, [] => d
  | d, n :: ns => minAcc (min d n) ns

/-- Minimum of a nonempty list, `0` for the empty list. -/
def headMin : List Nat → Nat
  | [] => 0
  | n :: ns => minAcc n ns

/-- The nonces a snapshot holds for a given sender. -/
def sendNonces (snap : List BestRec) (s : Nat) : List Nat :=
  (snap.filter fun r => r.sender == s).map fun r => r.nonce

/-- Modelled from the spec: `BestTransactions` (module `pool::best`), the
consumer view over Pending. -/
structure BestTransactions where
  snapshot : List BestRec
  pend : List BestRec
  cursor : Nat → Nat

/-- The iterator state produced from a snapshot: everything yieldable, each
sender's cursor at its smallest snapshot nonce. -/
def bestInit (snap : List BestRec) : BestTransactions :=
  { snapshot := snap, pend := snap, cursor := fun s => headMin (sendNonces snap s) }

/-- The records whose nonce is at their sender's cursor. -/
def BestTransactions.eligible (st : BestTransactions) : List BestRec :=
  st.pend.filter fun r => r.nonce == st.cursor r.sender

/-- Highest-priority record of a list. -/
def pickBest : List BestRec → Option BestRec
  | [] => none
  | r :: rs =>
      some (match pickBest rs with
        | none => r
        | some q => if r.priority < q.priority then q else r)

/-- One `next()` call: yield the highest-priority cursor-eligible record,
advancing its sender's cursor; `none` when the iterator is exhausted. -/
def BestTransactions.pop_next (st : BestTransactions) :
    Option BestRec × BestTransactions :=
  match pickBest st.eligible with
  | none => (none, st)
  | some r =>
      (some r,
        { st with
          pend := st.pend.erase r
          cursor := fun s => if s = r.sender then st.cursor s + 1 else st.cursor s })

/-- Consumer call `mark_invalid`: remove every higher-nonce record of the same sender from
the yieldable set of this iteration. -/
def BestTransactions.mark_invalid (st : BestTransactions) (s n : Nat) :
    BestTransactions :=
  { st with pend := st.pend.filter fun q => !(q.sender == s && decide (n < q.nonce)) }

/-- The operations a consumer can interleave on the iterator. -/
inductive BestOp where
  | next
  | mark_invalid (sender nonce : Nat)

/-- The sequence of records yielded while running the given operations. -/
def runBest : List BestOp → BestTransactions → List BestRec
  | [], _ => []
  | BestOp.next :: ops, st =>
      match st.pop_next with
      | (none, st') => runBest ops st'
      | (some r, st') => r :: runBest ops st'
  | BestOp.mark_invalid s n :: ops, st => runBest ops (st.mark_invalid s n)

/-- The snapshot records that are the same-sender predecessor-by-nonce of `r`. -/
def predecessorsIn (snap : List BestRec) (r : BestRec) : List BestRec :=
  snap.filter fun q => q.sender == r.sender && q.nonce + 1 == r.nonce

/-- Checks, yield by yield, that every yielded record's same-sender
predecessor-by-nonce present in the snapshot was already yielded before it
(`acc` holds the earlier yields). -/
def goodYields (snap : List BestRec) : List BestRec → List BestRec → Bool
  | _, [] => true
  | acc, r :: rest =>
      (predecessorsIn snap r).all (fun q => acc.contains q) &&
        goodYields snap (acc ++ [r]) rest

/-- The snapshot the pool hands to an iterator: its Pending records, scored
by the ordering at the current base fee. -/
def TxPool.pendingSnapshot (p : TxPool) : List BestRec :=
  (p.txs.filter fun e => e.2 == SubPool.Pending).map fun e =>
    { hash := e.1.hash
      sender := e.1.transaction_id.sender
      nonce := e.1.transaction_id.nonce
      priority := priorityOf p.base_fee e.1.transaction }

/-- The `PoolInner::ready_transactions`: the best-transactions iterator over the
current Pending sub-pool. -/
def PoolInner.ready_transactions (p : PoolInner) : BestTransactions :=
  bestInit p.pool.pendingSnapshot

/-! ## Concrete states used by the witnesses -/

/-- A fresh sender-ID table. -/
def emptyIdentifiers : SenderIdentifiers :=
  { table := [], next_id := 0 }

/-- A fresh inner pool with base fee 0 and room for 100 transactions. -/
def emptyTxPool : TxPool :=
  { base_fee := 0, max_count := 100, senders := [], txs := [] }

/-- A freshly constructed pool with no listeners. -/
def examplePool : PoolInner :=
  { identifiers := emptyIdentifiers, pool := emptyTxPool,
    pending_transaction_listener := [], transaction_listener := [],
    event_log := [], clock := 0 }

/-- Sender 1's transaction with nonce 6 (one past its on-chain nonce 5). -/
def txNonce6 : PoolTx :=
  { hash := 106, sender := 1, nonce := 6, gas_limit := 1, fee_cap := 5, value := 0 }

/-- Sender 1's transaction with nonce 5 (exactly its on-chain nonce). -/
def txNonce5 : PoolTx :=
  { hash := 105, sender := 1, nonce := 5, gas_limit := 1, fee_cap := 5, value := 0 }

/-- The pool after inserting the nonce-6 transaction: it is parked in Queued
because nonce 5 is missing. -/
def poolWithGap : PoolInner :=
  (examplePool.add_transaction TransactionOrigin.External
    (TransactionValidationOutcome.Valid 1000 5 txNonce6)).state

/-- The result of then inserting the nonce-5 transaction: it goes to Pending
and the cascade promotes the nonce-6 transaction to Pending as well. -/
def gapFillResult : AddTxResult :=
  poolWithGap.add_transaction TransactionOrigin.External
    (TransactionValidationOutcome.Valid 1000 5 txNonce5)

/-- A transaction whose nonce 0 is below its sender's on-chain nonce 5. -/
def txStale : PoolTx :=
  { hash := 900, sender := 7, nonce := 0, gas_limit := 1, fee_cap := 5, value := 0 }

/-- A snapshot record for the iterator witnesses. -/
def bestRecOf (h s n pr : Nat) : ValidPoolTransaction :=
  { transaction := { hash := h, sender := s, nonce := n, gas_limit := 1, fee_cap := pr, value := 0 }
    transaction_id := { sender := s, nonce := n }
    cost := pr
    propagate := false
    timestamp := 0
    origin := TransactionOrigin.External }

/-- A pool whose Pending sub-pool holds S/5 (priority 10), S/6 (priority 100)
and T/2 (priority 50) — spec §8 boundary scenario 5. -/
def poolThreePending : PoolInner :=
  { identifiers := { table := [(10, 0), (11, 1)], next_id := 2 }
    pool :=
      { base_fee := 0, max_count := 100
        senders := [(0, ⟨5, 1000⟩), (1, ⟨2, 1000⟩)]
        txs :=
          [(bestRecOf 205 0 5 10, SubPool.Pending),
            (bestRecOf 206 0 6 100, SubPool.Pending),
            (bestRecOf 302 1 2 50, SubPool.Pending)] }
    pending_transaction_listener := []
    transaction_listener := []
    event_log := []
    clock := 0 }

/-- The `Valid` outcome delivering the nonce-5 transaction. -/
def validOutcome5 : TransactionValidationOutcome :=
  TransactionValidationOutcome.Valid 1000 5 txNonce5

/-- The record `add_transaction` assembles for that outcome on a fresh pool. -/
def storedRecord5 : ValidPoolTransaction :=
  examplePool.mk_record TransactionOrigin.External txNonce5

/-- Four `next()` calls on the iterator. -/
def opsNext4 : List BestOp :=
  [BestOp.next, BestOp.next, BestOp.next, BestOp.next]

/-- The inductive invariant of the best-iterator run: every yieldable record
is in the snapshot, and every snapshot record strictly below its sender's
cursor has already been yielded (is in `acc`). -/
def BestInv (st : BestTransactions) (acc : List BestRec) : Prop :=
  (∀ r ∈ st.pend, r ∈ st.snapshot) ∧
    ∀ r ∈ st.snapshot, r.nonce < st.cursor r.sender → r ∈ acc

/-! ## Theorems -/

/-- C1: the claim states that no public operation of the pool panics, with
`resubmit` explicitly included; but the body of `PoolInner::resubmit` is
`unimplemented!()`, so it panics on every input.  This theorem evaluates the
embedded code: `resubmit` panics for every pool state and argument. -/
theorem C1_resubmit_always_panics (p : PoolInner)
    (transactions : List (TxHash × ValidPoolTransaction)) :
    p.resubmit transactions = RustOutcome.Panics :=
  rfl

/-- C2: a call to `add_transaction` with an `Invalid(tx, reason)` outcome
returns exactly that reason as its error, leaves the whole pool state
(sub-pools, membership map, sender-state cache, listeners, event log)
unchanged, and publishes no event of any kind. -/
theorem C2_invalid_outcome_error_verbatim (p : PoolInner)
    (origin : TransactionOrigin) (t : PoolTx) (err : PoolError) :
    (p.add_transaction origin (TransactionValidationOutcome.Invalid t err)).result =
        Except.error err ∧
      (p.add_transaction origin (TransactionValidationOutcome.Invalid t err)).state = p ∧
      (p.add_transaction origin (TransactionValidationOutcome.Invalid t err)).pending_events =
        [] ∧
      (p.add_transaction origin (TransactionValidationOutcome.Invalid t err)).new_tx_events =
        [] ∧
      (p.add_transaction origin (TransactionValidationOutcome.Invalid t err)).hash_events =
        [] :=
  ⟨rfl, rfl, rfl, rfl, rfl⟩

/-- C5: on both notification paths, a listener whose channel is merely full
is retained with the channel unchanged (only that event is lost for it), and
a listener is removed exactly when its channel is closed; `try_send` never
blocks.  The retained listeners are, in order, exactly those whose channel
is not closed, each updated by its own `try_send`. -/
theorem C5_listener_retention (ls : List (Chan TxHash)) (ready : TxHash)
    (ls' : List (Chan NewTransactionEvent)) (event : NewTransactionEvent) :
    on_new_pending_transaction ls ready =
        (ls.filter fun l => !l.closed).map (fun l => (l.try_send ready).2) ∧
      on_new_transaction ls' event =
        (ls'.filter fun l => !l.closed).map (fun l => (l.try_send event).2) := by
  constructor
  · induction ls with
    | nil => rfl
    | cons l rest ih =>
        cases hc : l.closed with
        | true => simp [on_new_pending_transaction, Chan.try_send, hc, ih]
        | false =>
            by_cases hf : l.capacity ≤ l.buffer.length
            · simp [on_new_pending_transaction, Chan.try_send, hc, hf, ih]
            · simp [on_new_pending_transaction, Chan.try_send, hc, hf, ih]
  · induction ls' with
    | nil => rfl
    | cons l rest ih =>
        cases hc : l.closed with
        | true => simp [on_new_transaction, Chan.try_send, hc, ih]
        | false =>
            by_cases hf : l.capacity ≤ l.buffer.length
            · simp [on_new_transaction, Chan.try_send, hc, hf, ih]
            · simp [on_new_transaction, Chan.try_send, hc, hf, ih]

/-- C7: `add_pending_listener` creates its channel with buffer size 2048 and
`add_transaction_listener` with buffer size 1024; the channel pushed on the
listener vector is that same fresh channel. -/
theorem C7_listener_buffer_sizes (p : PoolInner) :
    p.add_pending_listener.1.capacity = 2048 ∧
      p.add_pending_listener.2.pending_transaction_listener =
        p.pending_transaction_listener ++ [Chan.mk_new TxHash 2048] ∧
      p.add_transaction_listener.1.capacity = 1024 ∧
      p.add_transaction_listener.2.transaction_listener =
        p.transaction_listener ++ [Chan.mk_new NewTransactionEvent 1024] :=
  ⟨rfl, rfl, rfl, rfl⟩

/-- C8: in every pool state, `len()` returns 0 exactly when `is_empty()`
returns true. -/
theorem C8_len_zero_iff_is_empty (p : PoolInner) :
    p.len = 0 ↔ p.is_empty = true := by
  unfold PoolInner.len PoolInner.is_empty TxPool.len TxPool.is_empty
  cases htx : p.pool.txs <;> simp

/-- Rewriting against an empty discard set changes nothing. -/
theorem rewriteDiscarded_empty : rewriteDiscarded [] = id := by
  funext res
  cases res <;> simp [rewriteDiscarded]

/-- C3: `add_transactions` runs `discard_worst` exactly once, after all
per-transaction inserts, and only when at least one insert succeeded; the
final state is the post-insert state with that single enforcement applied,
and each returned entry is the per-transaction insert result, rewritten to
`DiscardedOnInsert` exactly when it was a success whose hash that
enforcement step evicted. -/
theorem C3_batch_size_enforcement_once (p : PoolInner) (origin : TransactionOrigin)
    (txs : List TransactionValidationOutcome) :
    (p.add_transactions origin txs).discard_runs =
        (if (PoolInner.insert_all p origin txs).1.any exceptIsOk then 1 else 0) ∧
      (p.add_transactions origin txs).state =
        (if (PoolInner.insert_all p origin txs).1.any exceptIsOk then
          (PoolInner.insert_all p origin txs).2.discard_worst.2
        else (PoolInner.insert_all p origin txs).2) ∧
      (p.add_transactions origin txs).results =
        (PoolInner.insert_all p origin txs).1.map
          (rewriteDiscarded
            (if (PoolInner.insert_all p origin txs).1.any exceptIsOk then
              (PoolInner.insert_all p origin txs).2.discard_worst.1
            else [])) := by
  cases hok : (PoolInner.insert_all p origin txs).1.any exceptIsOk with
  | false =>
      refine ⟨?_, ?_, ?_⟩ <;>
        simp [PoolInner.add_transactions, hok, rewriteDiscarded_empty]
  | true =>
      cases he : (PoolInner.insert_all p origin txs).2.discard_worst.1 with
      | nil =>
          refine ⟨?_, ?_, ?_⟩ <;>
            simp [PoolInner.add_transactions, hok, he, rewriteDiscarded_empty]
      | cons d ds =>
          refine ⟨?_, ?_, ?_⟩ <;>
            simp [PoolInner.add_transactions, hok, he]

/-- C10: when the inner pool rejects a `Valid` outcome at the insertion
step, `add_transaction` returns that error and emits no listener event of
any kind — the pending stream, the new-transaction stream, the per-hash
event listeners and the listener vectors are all untouched. -/
theorem C10_rejected_insert_no_events (p : PoolInner) (origin : TransactionOrigin)
    (balance state_nonce : Nat) (t : PoolTx) (e : PoolError)
    (h : p.pool.add_transaction (p.mk_record origin t) balance state_nonce =
      Except.error e) :
    (p.add_transaction origin
        (TransactionValidationOutcome.Valid balance state_nonce t)).result =
        Except.error e ∧
      (p.add_transaction origin
        (TransactionValidationOutcome.Valid balance state_nonce t)).pending_events = [] ∧
      (p.add_transaction origin
        (TransactionValidationOutcome.Valid balance state_nonce t)).new_tx_events = [] ∧
      (p.add_transaction origin
        (TransactionValidationOutcome.Valid balance state_nonce t)).hash_events = [] ∧
      (p.add_transaction origin
          (TransactionValidationOutcome.Valid balance state_nonce t)).state.event_log =
        p.event_log ∧
      (p.add_transaction origin
          (TransactionValidationOutcome.Valid balance state_nonce
            t)).state.pending_transaction_listener =
        p.pending_transaction_listener ∧
      (p.add_transaction origin
          (TransactionValidationOutcome.Valid balance state_nonce
            t)).state.transaction_listener =
        p.transaction_listener := by
  refine ⟨?_, ?_, ?_, ?_, ?_, ?_, ?_⟩ <;> simp [PoolInner.add_transaction, h]

/-- Witness for C10 at a concrete input: a fresh pool rejects a nonce-0
transaction of a sender whose on-chain nonce is 5 with `NonceTooLow`, and
no event is published. -/
theorem C10_rejected_insert_no_events_witness :
    (examplePool.pool.add_transaction
        (examplePool.mk_record TransactionOrigin.External txStale) 1000 5 =
      Except.error PoolError.NonceTooLow) ∧
      ((examplePool.add_transaction TransactionOrigin.External
          (TransactionValidationOutcome.Valid 1000 5 txStale)).result =
          Except.error PoolError.NonceTooLow ∧
        (examplePool.add_transaction TransactionOrigin.External
          (TransactionValidationOutcome.Valid 1000 5 txStale)).pending_events = [] ∧
        (examplePool.add_transaction TransactionOrigin.External
          (TransactionValidationOutcome.Valid 1000 5 txStale)).new_tx_events = [] ∧
        (examplePool.add_transaction TransactionOrigin.External
          (TransactionValidationOutcome.Valid 1000 5 txStale)).hash_events = [] ∧
        (examplePool.add_transaction TransactionOrigin.External
            (TransactionValidationOutcome.Valid 1000 5 txStale)).state.event_log =
          examplePool.event_log ∧
        (examplePool.add_transaction TransactionOrigin.External
            (TransactionValidationOutcome.Valid 1000 5
              txStale)).state.pending_transaction_listener =
          examplePool.pending_transaction_listener ∧
        (examplePool.add_transaction TransactionOrigin.External
            (TransactionValidationOutcome.Valid 1000 5 txStale)).state.transaction_listener =
          examplePool.transaction_listener) :=
  ⟨rfl,
    C10_rejected_insert_no_events examplePool TransactionOrigin.External 1000 5 txStale
      PoolError.NonceTooLow rfl⟩

/-- Removing a record can only shrink the membership map. -/
theorem mem_removeById {p : TxPool} {tid : TransactionId} {v : ValidPoolTransaction}
    {tag : SubPool} (h : (v, tag) ∈ (p.removeById tid).txs) : (v, tag) ∈ p.txs := by
  simp only [TxPool.removeById] at h
  exact (List.mem_filter.mp h).1

/-- Retagging keeps the underlying records of the membership map. -/
theorem mem_setSubPool {p : TxPool} {tid : TransactionId} {sp : SubPool}
    {v : ValidPoolTransaction} {tag : SubPool}
    (h : (v, tag) ∈ (p.setSubPool tid sp).txs) : ∃ t0, (v, t0) ∈ p.txs := by
  simp only [TxPool.setSubPool] at h
  rcases List.mem_map.mp h with ⟨a, ha, heq⟩
  by_cases hc : (a.1.transaction_id == tid) = true
  · rw [if_pos hc] at heq
    refine ⟨a.2, ?_⟩
    have h1 : a.1 = v := congrArg Prod.fst heq
    rw [← h1]
    simpa using ha
  · rw [if_neg hc] at heq
    exact ⟨tag, heq ▸ ha⟩

/-- The replacement step never invents records. -/
theorem mem_applyReplacement {p : TxPool} {v : ValidPoolTransaction} {p1 : TxPool}
    (hok : p.applyReplacement v = Except.ok p1) {w : ValidPoolTransaction}
    {tag : SubPool} (h : (w, tag) ∈ p1.txs) : (w, tag) ∈ p.txs := by
  unfold TxPool.applyReplacement at hok
  split at hok
  · injection hok with h1
    exact h1 ▸ h
  · split at hok
    · exact Except.noConfusion hok
    · split at hok
      · injection hok with h1
        exact mem_removeById (h1 ▸ h)
      · exact Except.noConfusion hok

/-- The promotion cascade never invents records: every record of the walked
pool was already held (under some tag). -/
theorem mem_cascadeWalk : ∀ (fuel : Nat) (p : TxPool) (s e acc B F : Nat)
    {v : ValidPoolTransaction} {tag : SubPool},
    (v, tag) ∈ (TxPool.cascadeWalk p s e acc B F fuel).1.txs → ∃ t0, (v, t0) ∈ p.txs := by
  intro fuel
  induction fuel with
  | zero =>
      intro p s e acc B F v tag h
      exact ⟨tag, h⟩
  | succ n ih =>
      intro p s e acc B F v tag h
      rw [TxPool.cascadeWalk] at h
      split at h
      · exact ⟨tag, h⟩
      · dsimp only at h
        split at h
        · exact ⟨tag, h⟩
        · dsimp only at h
          rcases ih _ s (e + 1) _ B F h with ⟨t0, ht⟩
          exact mem_setSubPool ht

/-- The inner insert stores no record besides the given one and those
already held. -/
theorem mem_txpool_add {p0 : TxPool} {w : ValidPoolTransaction} {bal sn : Nat}
    {added : AddedTransaction} {p' : TxPool}
    (hok : p0.add_transaction w bal sn = Except.ok (added, p'))
    {v : ValidPoolTransaction} {tag : SubPool} (hmem : (v, tag) ∈ p'.txs) :
    (∃ t0, (v, t0) ∈ p0.txs) ∨ v = w := by
  unfold TxPool.add_transaction at hok
  dsimp only at hok
  split at hok
  · exact Except.noConfusion hok
  · rename_i p1 hrep
    split at hok
    · exact Except.noConfusion hok
    · rename_i sp hroute
      injection hok with h1
      have h2 : (TxPool.cascadeWalk { p1 with txs := p1.txs ++ [(w, sp)] }
          w.transaction_id.sender sn 0 bal p1.base_fee
          ((p1.txs ++ [(w, sp)]).length + 1)).1 = p' := congrArg Prod.snd h1
      rw [← h2] at hmem
      rcases mem_cascadeWalk _ _ _ _ _ _ _ hmem with ⟨t0, ht⟩
      rcases List.mem_append.mp ht with hin | hnew
      · exact Or.inl ⟨t0, mem_applyReplacement hrep hin⟩
      · rcases List.mem_singleton.mp hnew with h3
        exact Or.inr (congrArg Prod.fst h3)

/-- C9: every record `add_transaction` constructs and stores carries
`propagate = false`, whatever the origin: any record held after the call was
either already held before it or has its propagate flag false. -/
theorem C9_propagate_always_false (p : PoolInner) (origin : TransactionOrigin)
    (o : TransactionValidationOutcome) {v : ValidPoolTransaction} {tag : SubPool}
    (h : (v, tag) ∈ (p.add_transaction origin o).state.pool.txs) :
    (∃ t0, (v, t0) ∈ p.pool.txs) ∨ v.propagate = false := by
  cases o with
  | Invalid t err => exact Or.inl ⟨tag, h⟩
  | Valid bal sn t =>
      unfold PoolInner.add_transaction at h
      dsimp only at h
      split at h
      · exact Or.inl ⟨tag, h⟩
      · rename_i added pool' heq
        rcases mem_txpool_add heq h with ⟨t0, ht⟩ | hvw
        · exact Or.inl ⟨t0, ht⟩
        · exact Or.inr (by rw [hvw]; rfl)

/-- Witness for C9 at a concrete input: the record stored for the nonce-5
transaction on a fresh pool. -/
theorem C9_propagate_always_false_witness :
    ((storedRecord5, SubPool.Pending) ∈
        (examplePool.add_transaction TransactionOrigin.External
          validOutcome5).state.pool.txs) ∧
      ((∃ t0, (storedRecord5, t0) ∈ examplePool.pool.txs) ∨
        storedRecord5.propagate = false) :=
  ⟨by decide,
    @C9_propagate_always_false examplePool TransactionOrigin.External validOutcome5
      storedRecord5 SubPool.Pending (by decide)⟩

/-- C4: evaluation of the code at the failing input.  Inserting S/6 with
on-chain nonce 5 parks it in Queued; then inserting S/5 moves S/5 to
Pending and the cascade promotes S/6 to Pending — the inner pool reports
hash 106 as promoted — yet the pending stream carries only the hash 105 of
the inserted record, and the per-hash and new-transaction notifications are
also only about 105: no event is published for the promoted transaction,
although the claim requires its hash on the pending stream. -/
theorem C4_cascade_promotion_not_notified :
    (poolWithGap.pool.txs.map fun e => (e.1.hash, e.2)) = [(106, SubPool.Queued)] ∧
      (gapFillResult.state.pool.txs.map fun e => (e.1.hash, e.2)) =
        [(106, SubPool.Pending), (105, SubPool.Pending)] ∧
      (match poolWithGap.pool.add_transaction
          (poolWithGap.mk_record TransactionOrigin.External txNonce5) 1000 5 with
        | Except.ok (added, _) => added.promoted_hashes
        | Except.error _ => []) = [106] ∧
      gapFillResult.pending_events = [105] ∧
      (gapFillResult.new_tx_events.map fun ev => ev.transaction.hash) = [105] ∧
      gapFillResult.hash_events = [(105, TransactionEvent.Ready)] ∧
      ¬106 ∈ gapFillResult.pending_events := by
  decide

/-- Helper bound: `minAcc` is a lower bound of its accumulator and of every element. -/
theorem minAcc_le (ns : List Nat) : ∀ d : Nat,
    minAcc d ns ≤ d ∧ ∀ m ∈ ns, minAcc d ns ≤ m := by
  induction ns with
  | nil =>
      intro d
      refine ⟨Nat.le_refl d, ?_⟩
      intro m hm
      cases hm
  | cons n ns ih =>
      intro d
      refine ⟨?_, ?_⟩
      · exact Nat.le_trans (ih (min d n)).1 (Nat.min_le_left d n)
      · intro m hm
        rcases List.mem_cons.mp hm with rfl | hm'
        · exact Nat.le_trans (ih (min d m)).1 (Nat.min_le_right d m)
        · exact (ih (min d n)).2 m hm'

/-- Helper bound: `headMin` is a lower bound of every element. -/
theorem headMin_le {l : List Nat} {x : Nat} (hx : x ∈ l) : headMin l ≤ x := by
  cases l with
  | nil => cases hx
  | cons n ns =>
      rcases List.mem_cons.mp hx with rfl | h
      · exact (minAcc_le ns x).1
      · exact (minAcc_le ns n).2 x h

/-- Helper fact: `pickBest` yields an element of its list. -/
theorem pickBest_mem : ∀ (l : List BestRec) (r : BestRec), pickBest l = some r → r ∈ l := by
  intro l
  induction l with
  | nil =>
      intro r h
      cases h
  | cons a as ih =>
      intro r h
      unfold pickBest at h
      cases hp : pickBest as with
      | none =>
          rw [hp] at h
          dsimp only at h
          have := Option.some.inj h
          exact this ▸ List.mem_cons_self a as
      | some q =>
          rw [hp] at h
          dsimp only at h
          by_cases hlt : a.priority < q.priority
          · rw [if_pos hlt] at h
            have := Option.some.inj h
            exact this ▸ List.mem_cons_of_mem a (ih q hp)
          · rw [if_neg hlt] at h
            have := Option.some.inj h
            exact this ▸ List.mem_cons_self a as

/-- Running any operation sequence from an invariant state yields only
records whose in-snapshot predecessor was already yielded. -/
theorem runBest_preserves : ∀ (ops : List BestOp) (st : BestTransactions)
    (acc : List BestRec), (st.snapshot.map bestKey).Nodup → BestInv st acc →
    goodYields st.snapshot acc (runBest ops st) = true := by
  intro ops
  induction ops with
  | nil =>
      intro st acc _ _
      rfl
  | cons op ops ih =>
      intro st acc hnd hinv
      cases op with
      | mark_invalid s n =>
          show goodYields st.snapshot acc (runBest ops (st.mark_invalid s n)) = true
          refine ih (st.mark_invalid s n) acc hnd ?_
          refine ⟨?_, hinv.2⟩
          intro r hr
          exact hinv.1 r (List.mem_filter.mp hr).1
      | next =>
          cases hp : pickBest st.eligible with
          | none =>
              have hpop : st.pop_next = (none, st) := by
                unfold BestTransactions.pop_next
                rw [hp]
              have hrun : runBest (BestOp.next :: ops) st = runBest ops st := by
                rw [runBest, hpop]
              rw [hrun]
              exact ih st acc hnd hinv
          | some r =>
              have hre : r ∈ st.eligible := pickBest_mem _ r hp
              have hrp : r ∈ st.pend := (List.mem_filter.mp hre).1
              have hrc : r.nonce = st.cursor r.sender := by
                have hb := (List.mem_filter.mp hre).2
                simpa using hb
              have hrs : r ∈ st.snapshot := hinv.1 r hrp
              have hpop : st.pop_next =
                  (some r,
                    { st with
                      pend := st.pend.erase r
                      cursor := fun s => if s = r.sender then st.cursor s + 1
                        else st.cursor s }) := by
                unfold BestTransactions.pop_next
                rw [hp]
              have hst' : runBest (BestOp.next :: ops) st =
                  r :: runBest ops
                    { st with
                      pend := st.pend.erase r
                      cursor := fun s => if s = r.sender then st.cursor s + 1
                        else st.cursor s } := by
                rw [runBest, hpop]
              rw [hst']
              rw [goodYields, Bool.and_eq_true]
              constructor
              · rw [List.all_eq_true]
                intro q hq
                rcases List.mem_filter.mp hq with ⟨hqs, hcond⟩
                rw [Bool.and_eq_true] at hcond
                have hsend : q.sender = r.sender := by
                  have hc1 := hcond.1
                  simpa using hc1
                have hnonce : q.nonce + 1 = r.nonce := by
                  have hc2 := hcond.2
                  simpa using hc2
                have hlt : q.nonce < st.cursor q.sender := by
                  rw [hsend, ← hrc]
                  omega
                have hq' : q ∈ acc := hinv.2 q hqs hlt
                simpa using hq'
              · refine ih
                  { st with
                    pend := st.pend.erase r
                    cursor := fun s => if s = r.sender then st.cursor s + 1
                      else st.cursor s }
                  (acc ++ [r]) hnd ⟨?_, ?_⟩
                · intro x hx
                  exact hinv.1 x (List.mem_of_mem_erase hx)
                · intro x hxs hxlt
                  dsimp only at hxlt
                  by_cases hxsend : x.sender = r.sender
                  · rw [if_pos hxsend] at hxlt
                    rcases lt_or_eq_of_le (Nat.lt_succ_iff.mp hxlt) with hlt' | heq'
                    · exact List.mem_append_left _ (hinv.2 x hxs hlt')
                    · have hkey : bestKey x = bestKey r := by
                        unfold bestKey
                        rw [hxsend, heq', hxsend, hrc]
                      have hxr : x = r :=
                        List.inj_on_of_nodup_map hnd hxs hrs hkey
                      exact List.mem_append_right _ (hxr ▸ List.mem_singleton_self r)
                  · rw [if_neg hxsend] at hxlt
                    exact List.mem_append_left _ (hinv.2 x hxs hxlt)

/-- C6: no iterator produced by the pool ever yields a transaction whose
same-sender predecessor-by-nonce is in the snapshot and has not already been
yielded, for every interleaving of `next` and `mark_invalid` calls. -/
theorem C6_best_iterator_nonce_order (p : PoolInner) (ops : List BestOp)
    (h : ((p.ready_transactions).snapshot.map bestKey).Nodup) :
    goodYields (p.ready_transactions).snapshot []
      (runBest ops p.ready_transactions) = true := by
  refine runBest_preserves ops p.ready_transactions [] h ⟨?_, ?_⟩
  · intro r hr
    exact hr
  · intro r hrs hlt
    exfalso
    have hle : headMin (sendNonces p.pool.pendingSnapshot r.sender) ≤ r.nonce := by
      refine headMin_le ?_
      unfold sendNonces
      refine List.mem_map.mpr ⟨r, List.mem_filter.mpr ⟨hrs, ?_⟩, rfl⟩
      simp
    exact absurd hlt (Nat.not_lt.mpr hle)

/-- Witness for C6 at a concrete input: the snapshot S/5 (priority 10),
S/6 (priority 100), T/2 (priority 50) with four `next` calls; nonce order is
respected (the yields are S/5, T/2, S/6). -/
theorem C6_best_iterator_nonce_order_witness :
    ((poolThreePending.ready_transactions).snapshot.map bestKey).Nodup ∧
      goodYields (poolThreePending.ready_transactions).snapshot []
        (runBest opsNext4 poolThreePending.ready_transactions) = true :=
  ⟨by decide, C6_best_iterator_nonce_order poolThreePending opsNext4 (by decide)⟩

end Reth
